import Mathlib

/-!
Verification of the Schema / SchemaTypeArray subsystem of the `warehouse`
document store, against a shallow embedding of `lib/types/array.js`
(`src/unnamed/part_001`) and, where the base class or the Schema class is
not among the sources (only their tests are, `src/unnamed/part_000`),
definitions modelled from the design document.

JavaScript values are embedded as the inductive `JSVal`; the numbers that
occur in the claims are integer counts and indices, so numbers are
modelled as `Int`. Fallible operations (`validate`, hook registration)
return `Except Err _`. In-place mutation of an array during `validate`
is modelled by returning, next to the `Except` result, the state the
input array holds when the operation returns or throws.
-/

set_option autoImplicit false

namespace Warehouse

/-- Embedding of the JavaScript values the array type operates on.
Numbers are modelled as integers (the claims only involve integer counts),
and functions are opaque values identified by a tag (only their
callability is observable in the modelled code). -/
inductive JSVal where
  | null
  | undefined
  | bool (b : Bool)
  | num (n : Int)
  | str (s : String)
  | arr (elems : List JSVal)
  | func (id : Nat)

mutual

/-- Structural equality on `JSVal`, the model of JavaScript `===` (and of
`Array.prototype.includes`) on the primitive and array values the claims
range over. -/
def JSVal.beq : JSVal → JSVal → Bool
  | .null, .null => true
  | .undefined, .undefined => true
  | .bool a, .bool b => a == b
  | .num a, .num b => a == b
  | .str a, .str b => a == b
  | .arr a, .arr b => JSVal.beqList a b
  | .func a, .func b => a == b
  | _, _ => false

/-- Pointwise `JSVal.beq` on lists of values. -/
def JSVal.beqList : List JSVal → List JSVal → Bool
  | [], [] => true
  | a :: as, b :: bs => JSVal.beq a b && JSVal.beqList as bs
  | _, _ => false

end

theorem JSVal.beq_iff : ∀ a b : JSVal, (JSVal.beq a b = true) ↔ a = b :=
  fun a =>
    @JSVal.rec (fun v => ∀ b, (JSVal.beq v b = true) ↔ v = b)
      (fun l => ∀ m, (JSVal.beqList l m = true) ↔ l = m)
      (fun b => by cases b <;> simp [JSVal.beq])
      (fun b => by cases b <;> simp [JSVal.beq])
      (fun x b => by cases b <;> simp [JSVal.beq])
      (fun x b => by cases b <;> simp [JSVal.beq])
      (fun x b => by cases b <;> simp [JSVal.beq])
      (fun elems ih b => by cases b <;> simp [JSVal.beq, ih])
      (fun x b => by cases b <;> simp [JSVal.beq])
      (fun m => by cases m <;> simp [JSVal.beqList])
      (fun h t ih1 ih2 m => by cases m <;> simp [JSVal.beq, JSVal.beqList, ih1, ih2])
      a

instance : DecidableEq JSVal := fun a b => decidable_of_iff _ (JSVal.beq_iff a b)

instance : BEq JSVal := ⟨JSVal.beq⟩

instance : LawfulBEq JSVal :=
  ⟨fun h => (JSVal.beq_iff _ _).1 h, fun {a} => (JSVal.beq_iff a a).2 rfl⟩

/-- JavaScript truthiness: `null`, `undefined`, `false`, `0` and the empty
string are falsy; every array (empty ones included) and every function is
truthy. -/
def truthy : JSVal → Bool
  | .null => false
  | .undefined => false
  | .bool b => b
  | .num n => n != 0
  | .str s => s ≠ ""
  | .arr _ => true
  | .func _ => true

/-- Whether a value is a sequence, the model of `Array.isArray`. -/
def isSeq : JSVal → Bool
  | .arr _ => true
  | _ => false

/-- The two error kinds the engine raises: `ValidationError` and
`TypeError`. -/
inductive Err where
  | validation (msg : String)
  | typeError (msg : String)
  deriving DecidableEq, Repr

/-! ## Base type contract (`SchemaType`)

The file `schematype.js` is not among the sources, only its subclass
`array.js` and the design document are, so the two base operations that
the array type calls into are modelled from the spec. -/

/-- Modelled from the spec: `SchemaType.prototype.cast` (its file
`schematype.js` is missing from the sources). Per §4.1, an absent
(`undefined`) input yields the configured default, an explicit `null`
bypasses defaulting and is returned as `null`, and any other value is
returned unchanged (the base class applies no coercion). -/
def SchemaType.cast (defaultVal : JSVal) (v : JSVal) : JSVal :=
  match v with
  | .undefined => defaultVal
  | v => v

/-- Modelled from the spec: `SchemaType.prototype.validate` (its file
`schematype.js` is missing from the sources). Per §4.1 it enforces
`required`, failing with a ValidationError when the value is absent or
`null` and the flag is set, and otherwise returns the value. The optional
custom validator at the array's own level is not modelled; the claims
quantify over the child contract instead. -/
def SchemaType.validate (required : Bool) (v : JSVal) : Except Err JSVal :=
  if required && (v == .null || v == .undefined) then
    .error (.validation "this field is required!")
  else .ok v

/-! ## The array type (`SchemaTypeArray`, from `src/unnamed/part_001`)

The child contract is abstract in the source (`this.child` is any
`SchemaType`), so each operation takes the corresponding child operation
as a function argument. -/

/-- Cast of the array type (`SchemaTypeArray.prototype.cast`): first the
base cast (default-filling), then `value == null` (JavaScript loose
equality, which holds exactly for `null` and `undefined`) returns the
value; a non-array value is wrapped into a one-element array; a falsy
`length` short-circuits, returning the (empty) array itself; otherwise
every slot is cast through the child in index order. The source's slot
assignment mutates the array in place; the model returns the resulting
contents. -/
def SchemaTypeArray.cast (child : JSVal → JSVal) (defaultVal : JSVal) (v : JSVal) : JSVal :=
  let value := SchemaType.cast defaultVal v
  if value == .null || value == .undefined then value
  else
    match value with
    | .arr [] => .arr []
    | .arr l => .arr (l.map child)
    | x => .arr [child x]

/-- Element loop of `SchemaTypeArray.prototype.validate`: each slot is
replaced by the child's validation result; a failure stops the loop.
Because `value[i] = child.validate(...)` mutates the array in place, the
second component records the contents the input array holds when the loop
returns or throws: on a failure the already-validated prefix has been
replaced while the failing slot and the rest keep their old values. -/
def validateElems (cv : JSVal → Except Err JSVal) :
    List JSVal → Except Err (List JSVal) × List JSVal
  | [] => (.ok [], [])
  | x :: xs =>
    match cv x with
    | .error e => (.error e, x :: xs)
    | .ok y =>
      let r := validateElems cv xs
      (r.1.map (fun l => y :: l), y :: r.2)

/-- Validate of the array type (`SchemaTypeArray.prototype.validate`):
base validate first, then a non-array value fails with a ValidationError
(the source interpolates the offending value into the message; the model
keeps a fixed message of the same kind), and otherwise every element is
validated through the child in index order. The second component is the
state of the input value afterwards (see `validateElems`). -/
def SchemaTypeArray.validate (cv : JSVal → Except Err JSVal) (required : Bool) (v : JSVal) :
    Except Err JSVal × JSVal :=
  match SchemaType.validate required v with
  | .error e => (.error e, v)
  | .ok value =>
    match value with
    | .arr l =>
      let r := validateElems cv l
      (r.1.map .arr, .arr r.2)
    | _ => (.error (.validation "is not an array!"), v)

/-- Helper for stating the validate theorems: `allOk cv l = some l'` says
that the child validates every element of `l`, with results `l'`. -/
def allOk (cv : JSVal → Except Err JSVal) : List JSVal → Option (List JSVal)
  | [] => some []
  | x :: xs =>
    match cv x with
    | .error _ => none
    | .ok y => (allOk cv xs).map (fun l => y :: l)

/-- A concrete child contract used as a test input: its validator replaces
`1` by `100` (the base contract lets a custom validator return a
replacement value) and rejects `2`. -/
def cvEx : JSVal → Except Err JSVal := fun v =>
  if v == .num 2 then .error (.validation "bad")
  else if v == .num 1 then .ok (.num 100)
  else .ok v

/-- Comparison loop of `SchemaTypeArray.prototype.compare`: the child's
compare on each pair of slots up to the shorter length, first non-zero
result winning; when every compared pair ties the result is
`lenA - lenB` for the original lengths (recursion keeps the difference
of the remaining lengths equal to it). -/
def lexCompare (cc : JSVal → JSVal → Int) : List JSVal → List JSVal → Int
  | [], ys => -(ys.length : Int)
  | x :: xs, [] => ((x :: xs).length : Int)
  | x :: xs, y :: ys =>
    let r := cc x y
    if r ≠ 0 then r else lexCompare cc xs ys

/-- Compare of the array type (`SchemaTypeArray.prototype.compare`): a
falsy side sorts as in the base contract (`1`, `-1`, or `0` when both are
falsy), and two truthy arrays compare lexicographically through the
child. On a truthy non-array input the source reads an `undefined`
`length` and produces `NaN`; those inputs are outside the modelled
domain and are mapped to `0`. -/
def SchemaTypeArray.compare (cc : JSVal → JSVal → Int) (a b : JSVal) : Int :=
  if truthy a then
    if ¬ truthy b then 1
    else
      match a, b with
      | .arr la, .arr lb => lexCompare cc la lb
      | _, _ => 0
  else if truthy b then -1 else 0

/-- Parse of the array type (`SchemaTypeArray.prototype.parse`): a falsy
input is returned as-is (`if (!value) return value`); a value with falsy
`length` returns a fresh empty array; otherwise every slot is parsed
through the child contract in index order. On a truthy non-array value
JavaScript reads `value.length`: a string exposes its character count and
its characters by index, while other values expose `undefined` (falsy), so
they fall into the empty-array branch. -/
def SchemaTypeArray.parse (child : JSVal → JSVal) (v : JSVal) : JSVal :=
  if ¬ truthy v then v
  else
    match v with
    | .arr l => .arr (l.map child)
    | .str s => .arr ((s.toList.map (fun c => JSVal.str (String.mk [c]))).map child)
    | _ => .arr []

/-- Serialization of the array type (`SchemaTypeArray.prototype.value`):
same structure as `parse`, mapping the child's `value` instead. -/
def SchemaTypeArray.value (child : JSVal → JSVal) (v : JSVal) : JSVal :=
  if ¬ truthy v then v
  else
    match v with
    | .arr l => .arr (l.map child)
    | .str s => .arr ((s.toList.map (fun c => JSVal.str (String.mk [c]))).map child)
    | _ => .arr []

/-- Element loop of `SchemaTypeArray.prototype.match`: the child's match
on the slots at equal indices; the caller has already checked the lengths
are equal, so the loop is the pointwise conjunction. -/
def matchElems (cm : JSVal → JSVal → Bool) : List JSVal → List JSVal → Bool
  | x :: xs, y :: ys => cm x y && matchElems cm xs ys
  | _, _ => true

/-- Match of the array type (`SchemaTypeArray.prototype.match`): when
either side is falsy the result is `value === query`; otherwise the
lengths must be equal and every element must match positionally through
the child. On truthy non-array sides the source compares `undefined`
lengths: two such sides pass the length test vacuously, an array against
one fails it. -/
def SchemaTypeArray.match' (cm : JSVal → JSVal → Bool) (value query : JSVal) : Bool :=
  if ¬ truthy value ∨ ¬ truthy query then value == query
  else
    match value, query with
    | .arr la, .arr lb => la.length == lb.length && matchElems cm la lb
    | .arr _, _ => false
    | _, .arr _ => false
    | _, _ => true

/-- Reading `value.length` in JavaScript: arrays and strings expose their
element count, other values expose `undefined`. -/
def jsLength : JSVal → JSVal
  | .arr l => .num l.length
  | .str s => .num s.length
  | _ => .undefined

/-- Query operator `q$size`: `(value ? value.length : 0) === query`. -/
def SchemaTypeArray.q_size (value query : JSVal) : Bool :=
  (if truthy value then jsLength value else .num 0) == query

/-- Query operator `q$length`: the source binds it to the very same
function as `q$size`. -/
def SchemaTypeArray.q_length : JSVal → JSVal → Bool := SchemaTypeArray.q_size

/-- The slots the `q$` operators loop over when iterating the query
(`query.length` / `query[i]`): an array yields its elements, a string its
characters, and any other value an `undefined` length, so the loop body
never runs. -/
def elemsOf : JSVal → List JSVal
  | .arr l => l
  | .str s => s.toList.map (fun c => JSVal.str (String.mk [c]))
  | _ => []

/-- Membership test `value.includes(x)` as used by the `q$` operators and
`u$addToSet`; `value` is truthy whenever it is consulted. On a non-array
truthy value JavaScript either does substring search (strings) or throws;
those inputs are outside the modelled domain and are mapped to `false`. -/
def valueIncludes (value x : JSVal) : Bool :=
  match value with
  | .arr l => l.contains x
  | _ => false

/-- Query operator `q$in`: a falsy value yields `false`; otherwise `true`
as soon as some query slot is contained in the value. -/
def SchemaTypeArray.q_in (value query : JSVal) : Bool :=
  if ¬ truthy value then false
  else (elemsOf query).any fun x => valueIncludes value x

/-- Query operator `q$nin`: a falsy value yields `true`; otherwise
`false` as soon as some query slot is contained in the value. -/
def SchemaTypeArray.q_nin (value query : JSVal) : Bool :=
  if ¬ truthy value then true
  else !((elemsOf query).any fun x => valueIncludes value x)

/-- Query operator `q$all`: a falsy value yields `false`; otherwise every
query slot must be contained in the value. -/
def SchemaTypeArray.q_all (value query : JSVal) : Bool :=
  if ¬ truthy value then false
  else (elemsOf query).all fun x => valueIncludes value x

/-- Resolution of one index argument of `Array.prototype.slice` against a
length: a negative index counts from the end (clamped at `0`, which
`Int.toNat` performs), a non-negative one is clamped at the length. -/
def jsSliceIdx (len : Nat) (i : Int) : Nat :=
  if i < 0 then ((len : Int) + i).toNat else min i.toNat len

/-- The JavaScript `value.slice(s, e)` on an array: the elements at the
resolved indices `s', ..., e' - 1`. -/
def jsSlice (l : List JSVal) (s e : Int) : List JSVal :=
  (l.take (jsSliceIdx l.length e)).drop (jsSliceIdx l.length s)

/-- Update operator `u$shift`: a falsy value or operand returns the value;
`true` is `slice(1)`, a positive count `n` is `slice(n)`, and any other
(negative) number is `slice(0, length + n)`. Truthy non-numeric operands
engage string coercion in the source and a truthy non-array value has no
`slice`; both are outside the modelled domain and return the value. -/
def SchemaTypeArray.u_shift (value update : JSVal) : JSVal :=
  if ¬ truthy value ∨ ¬ truthy update then value
  else
    match value, update with
    | .arr l, .bool true => .arr (jsSlice l 1 l.length)
    | .arr l, .num n =>
      if 0 < n then .arr (jsSlice l n l.length)
      else .arr (jsSlice l 0 ((l.length : Int) + n))
    | _, _ => value

/-- Update operator `u$pop`: a falsy value or operand returns the value;
`true` is `slice(0, length - 1)`, a positive count `n` is
`slice(0, length - n)`, and any other (negative) number `n` is
`slice(-n, length)`. The same domain remarks as for `u$shift` apply. -/
def SchemaTypeArray.u_pop (value update : JSVal) : JSVal :=
  if ¬ truthy value ∨ ¬ truthy update then value
  else
    match value, update with
    | .arr l, .bool true => .arr (jsSlice l 0 ((l.length : Int) - 1))
    | .arr l, .num n =>
      if 0 < n then .arr (jsSlice l 0 ((l.length : Int) - n))
      else .arr (jsSlice l (-n) l.length)
    | _, _ => value

/-- Loop of `u$addToSet` for a sequence operand: each member is pushed
onto the value unless the (already grown) value contains it. -/
def addToSetLoop (value : List JSVal) : List JSVal → List JSVal
  | [] => value
  | x :: xs => addToSetLoop (if value.contains x then value else value ++ [x]) xs

/-- The members `addToSetLoop` appends: the operand's members not yet
contained in the (growing) value, first occurrences only. -/
def addToSetNew (value : List JSVal) : List JSVal → List JSVal
  | [] => []
  | x :: xs =>
    if value.contains x then addToSetNew value xs
    else x :: addToSetNew (value ++ [x]) xs

/-- Update operator `u$addToSet`: a sequence operand replaces a falsy
value and otherwise has each of its members pushed when missing; a
non-sequence operand is wrapped for a falsy value and otherwise pushed
when missing. A truthy non-array value has no `includes` in the source
(it throws) and is returned unchanged, outside the modelled domain. -/
def SchemaTypeArray.u_addToSet (value update : JSVal) : JSVal :=
  match update with
  | .arr upd =>
    if ¬ truthy value then .arr upd
    else
      match value with
      | .arr l => .arr (addToSetLoop l upd)
      | other => other
  | _ =>
    if ¬ truthy value then .arr [update]
    else
      match value with
      | .arr l => .arr (if l.contains update then l else l ++ [update])
      | other => other

/-! ## The Schema hook registry

The Schema class itself is not among the sources; only its test file
(`src/unnamed/part_000`) is. The hook registry and `pre`/`post` are
modelled from the spec (§3 Hook Registry, §4.3) and the messages the
tests expect. -/

/-- Modelled from the spec: the Schema hook registry, two kinds times two
lifecycle events, each an ordered append-only list of callables. -/
structure Schema where
  preSave : List JSVal
  preRemove : List JSVal
  postSave : List JSVal
  postRemove : List JSVal
  deriving DecidableEq

/-- A freshly constructed schema: all four hook lists are empty. -/
def Schema.new : Schema := ⟨[], [], [], []⟩

/-- JavaScript callability, `typeof fn === 'function'`. -/
def callable : JSVal → Bool
  | .func _ => true
  | _ => false

/-- Modelled from the spec: `Schema.prototype.pre` (the Schema class file
is missing from the sources). Per §4.3 it appends `fn` to the matching
pre-hook list, fails with a TypeError when the event type is not exactly
`save` or `remove`, and fails with a TypeError when `fn` is not callable;
the messages are the ones the tests expect. -/
def Schema.pre (s : Schema) (type : String) (fn : JSVal) : Except Err Schema :=
  if type ≠ "save" ∧ type ≠ "remove" then
    .error (.typeError "Hook type must be `save` or `remove`!")
  else if ¬ callable fn then .error (.typeError "Hook must be a function!")
  else if type = "save" then .ok ⟨s.preSave ++ [fn], s.preRemove, s.postSave, s.postRemove⟩
  else .ok ⟨s.preSave, s.preRemove ++ [fn], s.postSave, s.postRemove⟩

/-- Modelled from the spec: `Schema.prototype.post`, symmetric to
`Schema.pre` on the post-hook lists. -/
def Schema.post (s : Schema) (type : String) (fn : JSVal) : Except Err Schema :=
  if type ≠ "save" ∧ type ≠ "remove" then
    .error (.typeError "Hook type must be `save` or `remove`!")
  else if ¬ callable fn then .error (.typeError "Hook must be a function!")
  else if type = "save" then .ok ⟨s.preSave, s.preRemove, s.postSave ++ [fn], s.postRemove⟩
  else .ok ⟨s.preSave, s.preRemove, s.postSave, s.postRemove ++ [fn]⟩

/-- A concrete antisymmetric child compare used as a test input: the
numeric order on numbers, `0` elsewhere. -/
def intCompare : JSVal → JSVal → Int := fun a b =>
  match a, b with
  | .num x, .num y => if x < y then -1 else if y < x then 1 else 0
  | _, _ => 0

/-! ## Theorems -/

/-- C1, counterexample: the claim says an absent/falsy input to the array
type's `parse` returns an empty sequence rather than null, but the
source's `if (!value) return value` returns the `null` itself, which is
not an empty sequence. -/
theorem c1_counterexample :
    SchemaTypeArray.parse (fun v => v) .null = .null ∧
    SchemaTypeArray.parse (fun v => v) .null ≠ .arr [] := by
  exact ⟨rfl, by decide⟩

/-- C1, amended: for the Array type's `parse` and `value` operations a
falsy input (null-like or otherwise absent) is returned unchanged — in
particular `parse(null)` is `null`, not an empty sequence — while an
empty array yields an empty sequence and an array input yields the
element-wise map of the child contract's `parse` (respectively `value`)
over the elements in index order. -/
theorem c1_parse_value (cp cvl : JSVal → JSVal) :
    (∀ v, truthy v = false →
      SchemaTypeArray.parse cp v = v ∧ SchemaTypeArray.value cvl v = v) ∧
    (SchemaTypeArray.parse cp (.arr []) = .arr [] ∧
      SchemaTypeArray.value cvl (.arr []) = .arr []) ∧
    (∀ l, SchemaTypeArray.parse cp (.arr l) = .arr (l.map cp) ∧
      SchemaTypeArray.value cvl (.arr l) = .arr (l.map cvl)) := by
  refine ⟨fun v hv => ?_, ⟨rfl, rfl⟩, fun l => ⟨rfl, rfl⟩⟩
  simp [SchemaTypeArray.parse, SchemaTypeArray.value, hv]

/-- C1, witness for the amended theorem at the absent value `undefined`. -/
theorem c1_witness :
    SchemaTypeArray.parse (fun v => v) .undefined = .undefined ∧
    SchemaTypeArray.value (fun v => v) .undefined = .undefined :=
  (c1_parse_value (fun v => v) (fun v => v)).1 .undefined rfl

/-- C3: for the Array type's `cast`, a null input returns null; a
non-null non-array input is wrapped into a one-element array whose single
element is the input cast through the child contract; an empty array
short-circuits and is returned as-is; an array input has every element
cast through the child contract in index order (the source assigns the
slots in place; the model states the resulting contents). -/
theorem c3_cast (child : JSVal → JSVal) (dflt : JSVal) :
    (SchemaTypeArray.cast child dflt .null = .null) ∧
    (∀ v, isSeq v = false → v ≠ .null → v ≠ .undefined →
      SchemaTypeArray.cast child dflt v = .arr [child v]) ∧
    (SchemaTypeArray.cast child dflt (.arr []) = .arr []) ∧
    (∀ l, SchemaTypeArray.cast child dflt (.arr l) = .arr (l.map child)) := by
  refine ⟨rfl, fun v hs hn hu => ?_, rfl, fun l => ?_⟩
  · cases v <;> simp_all [SchemaTypeArray.cast, SchemaType.cast, isSeq]
  · cases l <;> rfl

/-- C3, witness: a scalar is wrapped and cast through the child. -/
theorem c3_witness :
    SchemaTypeArray.cast (fun v => v) (.arr []) (.num 5) = .arr [.num 5] :=
  (c3_cast (fun v => v) (.arr [])).2.1 (.num 5) rfl (by decide) (by decide)

/-- C9: `pre` and `post` append the callable to the matching hook list
(registering one hook on a fresh schema makes that list have length 1),
fail with a TypeError when the event type is not exactly `save` or
`remove`, and fail with a TypeError when the hook argument is not
callable. -/
theorem c9_hooks :
    (∀ (s : Schema) (f : JSVal), callable f = true →
      s.pre "save" f = .ok ⟨s.preSave ++ [f], s.preRemove, s.postSave, s.postRemove⟩ ∧
      s.pre "remove" f = .ok ⟨s.preSave, s.preRemove ++ [f], s.postSave, s.postRemove⟩ ∧
      s.post "save" f = .ok ⟨s.preSave, s.preRemove, s.postSave ++ [f], s.postRemove⟩ ∧
      s.post "remove" f = .ok ⟨s.preSave, s.preRemove, s.postSave, s.postRemove ++ [f]⟩) ∧
    (∀ f, callable f = true →
      (Schema.new.pre "save" f).map (fun s => s.preSave.length) = .ok 1 ∧
      (Schema.new.post "save" f).map (fun s => s.postSave.length) = .ok 1) ∧
    (∀ (s : Schema) (t : String) (f : JSVal), t ≠ "save" → t ≠ "remove" →
      s.pre t f = .error (.typeError "Hook type must be `save` or `remove`!") ∧
      s.post t f = .error (.typeError "Hook type must be `save` or `remove`!")) ∧
    (∀ (s : Schema) (f : JSVal), callable f = false →
      s.pre "save" f = .error (.typeError "Hook must be a function!") ∧
      s.pre "remove" f = .error (.typeError "Hook must be a function!") ∧
      s.post "save" f = .error (.typeError "Hook must be a function!") ∧
      s.post "remove" f = .error (.typeError "Hook must be a function!")) := by
  refine ⟨fun s f hf => ?_, fun f hf => ?_, fun s t f ht ht' => ?_, fun s f hf => ?_⟩
  · simp [Schema.pre, Schema.post, hf]
  · simp [Schema.pre, Schema.post, Schema.new, hf, Except.map]
  · simp [Schema.pre, Schema.post, ht, ht']
  · simp [Schema.pre, Schema.post, hf]

/-- C9, witness: a registration that succeeds with the list grown to
length 1, a bad event type, and a non-callable hook. -/
theorem c9_witness :
    (Schema.new.pre "save" (.func 0)).map (fun s => s.preSave.length) = .ok 1 ∧
    Schema.new.pre "wtf" (.func 0) =
      .error (.typeError "Hook type must be `save` or `remove`!") ∧
    Schema.new.pre "save" .undefined = .error (.typeError "Hook must be a function!") :=
  ⟨(c9_hooks.2.1 (.func 0) rfl).1,
   (c9_hooks.2.2.1 Schema.new "wtf" (.func 0) (by decide) (by decide)).1,
   (c9_hooks.2.2.2 Schema.new .undefined rfl).1⟩

/-- C10: `q$nin` is the boolean negation of `q$in` on every input;
`q$length` is the identical function to `q$size`; a falsy value makes
`q$in` and `q$all` return false and `q$nin` return true regardless of the
query, and in particular `q$all(null, [])` is false even though the
universally-quantified reading is vacuously true. -/
theorem c10_query_ops :
    (∀ v q, SchemaTypeArray.q_nin v q = !(SchemaTypeArray.q_in v q)) ∧
    (SchemaTypeArray.q_length = SchemaTypeArray.q_size) ∧
    (∀ v q, truthy v = false →
      SchemaTypeArray.q_in v q = false ∧ SchemaTypeArray.q_all v q = false ∧
      SchemaTypeArray.q_nin v q = true) ∧
    (SchemaTypeArray.q_all .null (.arr []) = false) := by
  refine ⟨fun v q => ?_, rfl, fun v q hv => ?_, rfl⟩
  · unfold SchemaTypeArray.q_nin SchemaTypeArray.q_in
    cases h : truthy v <;> simp [h]
  · simp [SchemaTypeArray.q_in, SchemaTypeArray.q_all, SchemaTypeArray.q_nin, hv]

/-- C10, witness: the falsy-value clause at `null` against a non-empty
query. -/
theorem c10_witness :
    SchemaTypeArray.q_in .null (.arr [.num 1]) = false ∧
    SchemaTypeArray.q_all .null (.arr [.num 1]) = false ∧
    SchemaTypeArray.q_nin .null (.arr [.num 1]) = true :=
  c10_query_ops.2.2.1 .null (.arr [.num 1]) rfl

theorem addToSetLoop_eq (upd : List JSVal) :
    ∀ value, addToSetLoop value upd = value ++ addToSetNew value upd := by
  induction upd with
  | nil => intro value; simp [addToSetLoop, addToSetNew]
  | cons x xs ih =>
    intro value
    by_cases hm : x ∈ value <;> simp [addToSetLoop, addToSetNew, hm, ih]

theorem addToSetNew_sublist (upd : List JSVal) :
    ∀ value, (addToSetNew value upd).Sublist upd := by
  induction upd with
  | nil => intro value; simp [addToSetNew]
  | cons x xs ih =>
    intro value
    by_cases hm : x ∈ value
    · simpa [addToSetNew, hm] using (ih value).cons x
    · simpa [addToSetNew, hm] using (ih (value ++ [x])).cons₂ x

theorem addToSetNew_not_mem (upd : List JSVal) :
    ∀ value y, y ∈ addToSetNew value upd → y ∉ value := by
  induction upd with
  | nil => intro value y hy; simp [addToSetNew] at hy
  | cons x xs ih =>
    intro value y hy
    by_cases hm : x ∈ value
    · simp [addToSetNew, hm] at hy
      exact ih value y hy
    · simp [addToSetNew, hm] at hy
      rcases hy with rfl | hy
      · exact hm
      · intro hv
        exact ih (value ++ [x]) y hy (List.mem_append_left _ hv)

theorem addToSetNew_nodup (upd : List JSVal) :
    ∀ value, (addToSetNew value upd).Nodup := by
  induction upd with
  | nil => intro value; simp [addToSetNew]
  | cons x xs ih =>
    intro value
    by_cases hm : x ∈ value
    · simpa [addToSetNew, hm] using ih value
    · simp [addToSetNew, hm]
      refine ⟨fun hx => ?_, ih (value ++ [x])⟩
      exact addToSetNew_not_mem xs (value ++ [x]) x hx (List.mem_append_right _ (by simp))

theorem addToSetNew_covers (upd : List JSVal) :
    ∀ value y, y ∈ upd → y ∈ value ++ addToSetNew value upd := by
  induction upd with
  | nil => intro value y hy; simp at hy
  | cons x xs ih =>
    intro value y hy
    rcases List.mem_cons.1 hy with rfl | hy
    · by_cases hm : y ∈ value <;> simp [addToSetNew, hm]
    · by_cases hm : x ∈ value
      · simpa [addToSetNew, hm] using ih value y hy
      · simpa [addToSetNew, hm, or_assoc] using ih (value ++ [x]) y hy

/-- C7: `u$addToSet` appends a non-sequence operand only when the array
does not already contain it; a sequence operand has those of its members
not already present appended once each, in operand order (`addToSetNew`
is the appended part: a duplicate-free sublist of the operand, disjoint
from the value, which together with the value covers every operand
member); concretely `u$addToSet([1,2], 2) = [1,2]` and
`u$addToSet([1], [1,2]) = [1,2]`. -/
theorem c7_addToSet :
    (∀ (l : List JSVal) (x : JSVal), isSeq x = false →
      (l.contains x = true → SchemaTypeArray.u_addToSet (.arr l) x = .arr l) ∧
      (l.contains x = false → SchemaTypeArray.u_addToSet (.arr l) x = .arr (l ++ [x]))) ∧
    (∀ (l upd : List JSVal),
      SchemaTypeArray.u_addToSet (.arr l) (.arr upd) = .arr (l ++ addToSetNew l upd) ∧
      (addToSetNew l upd).Sublist upd ∧
      (addToSetNew l upd).Nodup ∧
      (∀ y ∈ addToSetNew l upd, y ∉ l) ∧
      (∀ y ∈ upd, y ∈ l ++ addToSetNew l upd)) ∧
    (SchemaTypeArray.u_addToSet (.arr [.num 1, .num 2]) (.num 2) = .arr [.num 1, .num 2]) ∧
    (SchemaTypeArray.u_addToSet (.arr [.num 1]) (.arr [.num 1, .num 2]) =
      .arr [.num 1, .num 2]) := by
  refine ⟨fun l x hx => ⟨fun hc => ?_, fun hc => ?_⟩,
    fun l upd => ⟨by simp [SchemaTypeArray.u_addToSet, addToSetLoop_eq, truthy],
      addToSetNew_sublist upd l, addToSetNew_nodup upd l,
      addToSetNew_not_mem upd l, addToSetNew_covers upd l⟩,
    by decide, by decide⟩
  · cases x <;> simp_all [SchemaTypeArray.u_addToSet, isSeq, truthy]
  · cases x <;> simp_all [SchemaTypeArray.u_addToSet, isSeq, truthy]

/-- C7, witness: appending a genuinely new scalar member. -/
theorem c7_witness :
    SchemaTypeArray.u_addToSet (.arr [.num 1, .num 2]) (.num 3) =
      .arr [.num 1, .num 2, .num 3] :=
  (c7_addToSet.1 [.num 1, .num 2] (.num 3) rfl).2 (by decide)

theorem matchElems_eq_zip (cm : JSVal → JSVal → Bool) :
    ∀ la lb, matchElems cm la lb = (la.zip lb).all fun p => cm p.1 p.2 := by
  intro la
  induction la with
  | nil => intro lb; cases lb <;> simp [matchElems]
  | cons x xs ih => intro lb; cases lb <;> simp [matchElems, ih]

/-- C8: when either side is falsy, array `match` returns true exactly
when both sides are the very same absent value; when both sides are
arrays it returns true iff the lengths are equal and every element
matches the query element at the same position through the child's
match. -/
theorem c8_match (cm : JSVal → JSVal → Bool) :
    (∀ v q, truthy v = false → truthy q = false →
      (SchemaTypeArray.match' cm v q = true ↔ v = q)) ∧
    (∀ la lb, SchemaTypeArray.match' cm (.arr la) (.arr lb) =
      ((la.length == lb.length) && (la.zip lb).all fun p => cm p.1 p.2)) := by
  constructor
  · intro v q hv hq
    simp [SchemaTypeArray.match', hv, hq]
  · intro la lb
    simp [SchemaTypeArray.match', matchElems_eq_zip, truthy]

/-- C8, witness: two equal absent values match, two different ones do
not. -/
theorem c8_witness :
    SchemaTypeArray.match' (fun a b => a == b) .null .null = true ∧
    SchemaTypeArray.match' (fun a b => a == b) .null .undefined ≠ true :=
  ⟨((c8_match (fun a b => a == b)).1 .null .null rfl rfl).mpr rfl,
   fun h => by cases ((c8_match (fun a b => a == b)).1 .null .undefined rfl rfl).mp h⟩

theorem lexCompare_anti (cc : JSVal → JSVal → Int) (hanti : ∀ x y, cc x y = -(cc y x)) :
    ∀ la lb, lexCompare cc la lb = -(lexCompare cc lb la) := by
  intro la
  induction la with
  | nil => intro lb; cases lb <;> simp [lexCompare]
  | cons x xs ih =>
    intro lb
    cases lb with
    | nil => simp [lexCompare]
    | cons y ys =>
      by_cases h : cc y x = 0
      · have hx : cc x y = 0 := by rw [hanti x y, h, neg_zero]
        simp [lexCompare, hx, h, ih ys]
      · have hx : cc x y ≠ 0 := by rw [hanti x y]; simpa using h
        simp [lexCompare, hx, h, hanti x y]

theorem lexCompare_of_prefix (cc : JSVal → JSVal → Int) (hzero : ∀ x, cc x x = 0) :
    ∀ (pre : List JSVal) (x y : JSVal) (s1 s2 : List JSVal), cc x y ≠ 0 →
      lexCompare cc (pre ++ x :: s1) (pre ++ y :: s2) = cc x y := by
  intro pre
  induction pre with
  | nil => intro x y s1 s2 h; simp [lexCompare, h]
  | cons p ps ih => intro x y s1 s2 h; simp [lexCompare, hzero p, ih x y s1 s2 h]

theorem lexCompare_self_append (cc : JSVal → JSVal → Int) (hzero : ∀ x, cc x x = 0) :
    ∀ (l s : List JSVal), lexCompare cc l (l ++ s) = -(s.length : Int) := by
  intro l
  induction l with
  | nil => intro s; cases s <;> simp [lexCompare]
  | cons x xs ih => intro s; simp [lexCompare, hzero x, ih s]

theorem intCompare_anti : ∀ x y, intCompare x y = -(intCompare y x) := by
  intro x y
  cases x <;> cases y <;> simp [intCompare]
  all_goals split_ifs <;> omega

/-- C5: with an antisymmetric child compare, array compare is
antisymmetric on arrays; `null` sorts strictly before any array; the
comparison is lexicographic with the first non-zero child result winning;
when all compared elements tie the shorter array sorts strictly before
the longer; and concretely `compare([1,2], [1,2,3]) < 0`. -/
theorem c5_compare (cc : JSVal → JSVal → Int) (hanti : ∀ x y, cc x y = -(cc y x)) :
    (∀ la lb, SchemaTypeArray.compare cc (.arr la) (.arr lb) =
      -(SchemaTypeArray.compare cc (.arr lb) (.arr la))) ∧
    (∀ l, SchemaTypeArray.compare cc .null (.arr l) < 0) ∧
    (∀ (pre : List JSVal) (x y : JSVal) (s1 s2 : List JSVal), cc x y ≠ 0 →
      SchemaTypeArray.compare cc (.arr (pre ++ x :: s1)) (.arr (pre ++ y :: s2)) = cc x y) ∧
    (∀ (l s : List JSVal), s ≠ [] →
      SchemaTypeArray.compare cc (.arr l) (.arr (l ++ s)) < 0) ∧
    (SchemaTypeArray.compare cc (.arr [.num 1, .num 2]) (.arr [.num 1, .num 2, .num 3]) < 0) := by
  have hzero : ∀ x, cc x x = 0 := fun x => by have := hanti x x; omega
  have harr : ∀ la lb, SchemaTypeArray.compare cc (.arr la) (.arr lb) = lexCompare cc la lb :=
    fun la lb => rfl
  refine ⟨fun la lb => ?_, fun l => ?_, fun pre x y s1 s2 h => ?_, fun l s hs => ?_, ?_⟩
  · rw [harr, harr, lexCompare_anti cc hanti]
  · simp [SchemaTypeArray.compare, truthy]
  · rw [harr, lexCompare_of_prefix cc hzero pre x y s1 s2 h]
  · rw [harr, lexCompare_self_append cc hzero]
    have : 0 < s.length := List.length_pos.2 hs
    omega
  · have h2 : ([.num 1, .num 2] : List JSVal) ++ [.num 3] = [.num 1, .num 2, .num 3] := rfl
    rw [harr, ← h2, lexCompare_self_append cc hzero]
    decide

/-- C5, witness: the bundle applied to the antisymmetric numeric child
compare. -/
theorem c5_witness :
    SchemaTypeArray.compare intCompare (.arr [.num 1, .num 2]) (.arr [.num 1, .num 2, .num 3]) < 0 :=
  (c5_compare intCompare intCompare_anti).2.2.2.2

theorem drop_js (l : List JSVal) (a : Nat) : l.drop (min a l.length) = l.drop a := by
  rcases le_total a l.length with h | h
  · rw [min_eq_left h]
  · rw [min_eq_right h, List.drop_length, List.drop_eq_nil_of_le h]

theorem take_js (l : List JSVal) (a : Nat) : l.take (min a l.length) = l.take a := by
  rcases le_total a l.length with h | h
  · rw [min_eq_left h]
  · rw [min_eq_right h, List.take_length, List.take_of_length_le h]

theorem u_shift_true (l : List JSVal) :
    SchemaTypeArray.u_shift (.arr l) (.bool true) = .arr (l.drop 1) := by
  show JSVal.arr (jsSlice l 1 l.length) = _
  unfold jsSlice jsSliceIdx
  rw [if_neg (by omega), if_neg (by omega)]
  simp [drop_js, take_js]

theorem u_shift_pos (l : List JSVal) (n : Int) (h : 0 < n) :
    SchemaTypeArray.u_shift (.arr l) (.num n) = .arr (l.drop n.toNat) := by
  have hn : (n != 0) = true := by simp; omega
  have e1 : SchemaTypeArray.u_shift (.arr l) (.num n) =
      if 0 < n then .arr (jsSlice l n l.length)
      else .arr (jsSlice l 0 ((l.length : Int) + n)) := by
    simp [SchemaTypeArray.u_shift, truthy, hn]
  rw [e1, if_pos h]
  unfold jsSlice jsSliceIdx
  rw [if_neg (by omega), if_neg (by omega)]
  simp [drop_js, take_js]

theorem u_shift_neg (l : List JSVal) (n : Int) (h : n < 0) (hlen : (-n).toNat ≤ l.length) :
    SchemaTypeArray.u_shift (.arr l) (.num n) = .arr (l.take (l.length - (-n).toNat)) := by
  have hn : (n != 0) = true := by simp; omega
  have e1 : SchemaTypeArray.u_shift (.arr l) (.num n) =
      if 0 < n then .arr (jsSlice l n l.length)
      else .arr (jsSlice l 0 ((l.length : Int) + n)) := by
    simp [SchemaTypeArray.u_shift, truthy, hn]
  rw [e1, if_neg (by omega)]
  unfold jsSlice jsSliceIdx
  rw [if_neg (by omega), if_neg (by omega)]
  have e2 : ((l.length : Int) + n).toNat = l.length - (-n).toNat := by omega
  simp [take_js, e2]

theorem u_pop_true (l : List JSVal) :
    SchemaTypeArray.u_pop (.arr l) (.bool true) = .arr (l.take (l.length - 1)) := by
  show JSVal.arr (jsSlice l 0 ((l.length : Int) - 1)) = _
  cases l with
  | nil => rfl
  | cons x xs =>
    unfold jsSlice jsSliceIdx
    simp only [List.length_cons]
    rw [if_neg (by omega), if_neg (by omega)]
    have e2 : (((xs.length + 1 : Nat) : Int) - 1).toNat = xs.length + 1 - 1 := by omega
    simp [take_js, e2]

theorem u_pop_pos (l : List JSVal) (n : Int) (h : 0 < n) (hlen : n.toNat ≤ l.length) :
    SchemaTypeArray.u_pop (.arr l) (.num n) = .arr (l.take (l.length - n.toNat)) := by
  have hn : (n != 0) = true := by simp; omega
  have e1 : SchemaTypeArray.u_pop (.arr l) (.num n) =
      if 0 < n then .arr (jsSlice l 0 ((l.length : Int) - n))
      else .arr (jsSlice l (-n) l.length) := by
    simp [SchemaTypeArray.u_pop, truthy, hn]
  rw [e1, if_pos h]
  unfold jsSlice jsSliceIdx
  rw [if_neg (by omega), if_neg (by omega)]
  have e2 : ((l.length : Int) - n).toNat = l.length - n.toNat := by omega
  simp [take_js, e2]

theorem u_pop_neg (l : List JSVal) (n : Int) (h : n < 0) :
    SchemaTypeArray.u_pop (.arr l) (.num n) = .arr (l.drop (-n).toNat) := by
  have hn : (n != 0) = true := by simp; omega
  have e1 : SchemaTypeArray.u_pop (.arr l) (.num n) =
      if 0 < n then .arr (jsSlice l 0 ((l.length : Int) - n))
      else .arr (jsSlice l (-n) l.length) := by
    simp [SchemaTypeArray.u_pop, truthy, hn]
  rw [e1, if_neg (by omega)]
  unfold jsSlice jsSliceIdx
  rw [if_neg (by omega), if_neg (by omega)]
  simp [drop_js, take_js]

/-- C6, counterexample: by the claim, `u$shift([1,2,3], -4)` removes the
last 4 elements of a 3-element array, leaving the empty array; the
source computes `slice(0, 3 + (-4))`, whose negative end index wraps
around, so elements from the front survive and the result is `[1, 2]`. -/
theorem c6_counterexample :
    SchemaTypeArray.u_shift (.arr [.num 1, .num 2, .num 3]) (.num (-4)) =
      .arr [.num 1, .num 2] ∧
    SchemaTypeArray.u_shift (.arr [.num 1, .num 2, .num 3]) (.num (-4)) ≠ .arr [] :=
  ⟨by decide, by decide⟩

/-- C6, amended: `u$shift` with operand `true` drops the first element,
with a positive count `n` the first `n` elements, and with a negative
count `-n`, provided `n` does not exceed the length, the last `n`
elements; `u$pop` mirrors it: `true` drops the last element, a positive
count `n` not exceeding the length drops the last `n` elements, a
negative count `-n` the first `n` elements (beyond the length, the
wrapped slice bound of the two provisoed cases keeps front elements
instead); concretely `u$pop([1,2,3], true) = [1,2]` and
`u$shift([1,2,3], 1) = [2,3]`. -/
theorem c6_shift_pop (l : List JSVal) (n : Int) :
    (SchemaTypeArray.u_shift (.arr l) (.bool true) = .arr (l.drop 1)) ∧
    (0 < n → SchemaTypeArray.u_shift (.arr l) (.num n) = .arr (l.drop n.toNat)) ∧
    (n < 0 → (-n).toNat ≤ l.length →
      SchemaTypeArray.u_shift (.arr l) (.num n) = .arr (l.take (l.length - (-n).toNat))) ∧
    (SchemaTypeArray.u_pop (.arr l) (.bool true) = .arr (l.take (l.length - 1))) ∧
    (0 < n → n.toNat ≤ l.length →
      SchemaTypeArray.u_pop (.arr l) (.num n) = .arr (l.take (l.length - n.toNat))) ∧
    (n < 0 → SchemaTypeArray.u_pop (.arr l) (.num n) = .arr (l.drop (-n).toNat)) ∧
    (SchemaTypeArray.u_pop (.arr [.num 1, .num 2, .num 3]) (.bool true) = .arr [.num 1, .num 2]) ∧
    (SchemaTypeArray.u_shift (.arr [.num 1, .num 2, .num 3]) (.num 1) = .arr [.num 2, .num 3]) :=
  ⟨u_shift_true l, u_shift_pos l n, u_shift_neg l n, u_pop_true l, u_pop_pos l n,
   u_pop_neg l n, by decide, by decide⟩

/-- C6, witness for the amended theorem: a negative shift and a positive
pop within the length. -/
theorem c6_witness :
    SchemaTypeArray.u_shift (.arr [.num 1, .num 2, .num 3]) (.num (-1)) =
      .arr [.num 1, .num 2] ∧
    SchemaTypeArray.u_pop (.arr [.num 1, .num 2, .num 3]) (.num 2) = .arr [.num 1] :=
  ⟨(c6_shift_pop [.num 1, .num 2, .num 3] (-1)).2.2.1 (by decide) (by decide),
   (c6_shift_pop [.num 1, .num 2, .num 3] 2).2.2.2.2.1 (by decide) (by decide)⟩

theorem validateElems_of_allOk (cv : JSVal → Except Err JSVal) :
    ∀ l l', allOk cv l = some l' → validateElems cv l = (.ok l', l') := by
  intro l
  induction l with
  | nil =>
    intro l' h
    simp [allOk] at h
    subst h
    rfl
  | cons x xs ih =>
    intro l' h
    cases hx : cv x with
    | error e => simp [allOk, hx] at h
    | ok y =>
      simp [allOk, hx] at h
      rcases h with ⟨l'', h1, h2⟩
      subst h2
      simp [validateElems, hx, ih l'' h1, Except.map]

theorem validateElems_err (cv : JSVal → Except Err JSVal) :
    ∀ (pre pre' : List JSVal) (x : JSVal) (suf : List JSVal) (e : Err),
      allOk cv pre = some pre' → cv x = .error e →
      validateElems cv (pre ++ x :: suf) = (.error e, pre' ++ x :: suf) := by
  intro pre
  induction pre with
  | nil =>
    intro pre' x suf e h hx
    simp [allOk] at h
    subst h
    simp [validateElems, hx]
  | cons p ps ih =>
    intro pre' x suf e h hx
    cases hp : cv p with
    | error e2 => simp [allOk, hp] at h
    | ok y =>
      simp [allOk, hp] at h
      rcases h with ⟨ps', h1, h2⟩
      subst h2
      simp [validateElems, hp, ih ps' x suf e h1 hx, Except.map]

theorem validate_base_arr (required : Bool) (l : List JSVal) :
    SchemaType.validate required (.arr l) = .ok (.arr l) := by
  simp [SchemaType.validate]

/-- C4: array validate fails with a ValidationError whenever the
base-validated value is not an array; on an array it validates every
element through the child in index order, a failing element's error
propagating as-is (the child's own error, not wrapped) and aborting the
whole array's validation whatever elements follow; when every element
passes, the sanitized array is returned. -/
theorem c4_validate (cv : JSVal → Except Err JSVal) (required : Bool) :
    (∀ v, SchemaType.validate required v = .ok v → isSeq v = false →
      (SchemaTypeArray.validate cv required v).1 = .error (.validation "is not an array!")) ∧
    (∀ (pre pre' : List JSVal) (x : JSVal) (suf : List JSVal) (e : Err),
      allOk cv pre = some pre' → cv x = .error e →
      (SchemaTypeArray.validate cv required (.arr (pre ++ x :: suf))).1 = .error e) ∧
    (∀ (l l' : List JSVal), allOk cv l = some l' →
      (SchemaTypeArray.validate cv required (.arr l)).1 = .ok (.arr l')) := by
  refine ⟨fun v hv hs => ?_, fun pre pre' x suf e h hx => ?_, fun l l' h => ?_⟩
  · unfold SchemaTypeArray.validate
    rw [hv]
    cases v <;> simp_all [isSeq]
  · simp only [SchemaTypeArray.validate, validate_base_arr,
      validateElems_err cv pre pre' x suf e h hx, Except.map]
  · simp only [SchemaTypeArray.validate, validate_base_arr,
      validateElems_of_allOk cv l l' h, Except.map]

/-- C4, witness: a non-array value is rejected; with the concrete child
`cvEx`, the failing slot's own error surfaces, and a passing array is
returned sanitized. -/
theorem c4_witness :
    (SchemaTypeArray.validate cvEx false (.num 5)).1 = .error (.validation "is not an array!") ∧
    (SchemaTypeArray.validate cvEx false (.arr [.num 1, .num 2])).1 = .error (.validation "bad") ∧
    (SchemaTypeArray.validate cvEx false (.arr [.num 1])).1 = .ok (.arr [.num 100]) :=
  ⟨(c4_validate cvEx false).1 (.num 5) rfl rfl,
   (c4_validate cvEx false).2.1 [.num 1] [.num 100] (.num 2) [] (.validation "bad") rfl rfl,
   (c4_validate cvEx false).2.2 [.num 1] [.num 100] rfl⟩

/-- C2, counterexample: with a child contract whose validator sanitizes
`1` to `100` and rejects `2` (a replacement the base contract allows),
validating `[1, 2]` raises the child's error, yet the input array has
already been mutated to `[100, 2]` — it is not left unchanged on
error. -/
theorem c2_counterexample :
    (SchemaTypeArray.validate cvEx false (.arr [.num 1, .num 2])).1 = .error (.validation "bad") ∧
    (SchemaTypeArray.validate cvEx false (.arr [.num 1, .num 2])).2 = .arr [.num 100, .num 2] ∧
    (JSVal.arr [.num 100, .num 2]) ≠ .arr [.num 1, .num 2] :=
  ⟨rfl, rfl, by decide⟩

/-- C2, amended: array validate has no partial-success result — either
every element (recursively) validates and the sanitized value is
returned, or an error is raised and no sanitized value is returned; but
the elements preceding the first failing one have already been replaced
in place by their sanitized values, so on error the input array is left
in that partially sanitized state rather than unchanged. -/
theorem c2_validate_state (cv : JSVal → Except Err JSVal) :
    (∀ (l l' : List JSVal), allOk cv l = some l' →
      SchemaTypeArray.validate cv false (.arr l) = (.ok (.arr l'), .arr l')) ∧
    (∀ (pre pre' : List JSVal) (x : JSVal) (suf : List JSVal) (e : Err),
      allOk cv pre = some pre' → cv x = .error e →
      SchemaTypeArray.validate cv false (.arr (pre ++ x :: suf)) =
        (.error e, .arr (pre' ++ x :: suf))) := by
  constructor
  · intro l l' h
    simp only [SchemaTypeArray.validate, validate_base_arr,
      validateElems_of_allOk cv l l' h, Except.map]
  · intro pre pre' x suf e h hx
    simp only [SchemaTypeArray.validate, validate_base_arr,
      validateElems_err cv pre pre' x suf e h hx, Except.map]

/-- C2, witness for the amended theorem: the failing validation of
`[1, 2]` leaves the array in the state `[100, 2]`. -/
theorem c2_witness :
    SchemaTypeArray.validate cvEx false (.arr [.num 1, .num 2]) =
      (.error (.validation "bad"), .arr [.num 100, .num 2]) :=
  (c2_validate_state cvEx).2 [.num 1] [.num 100] (.num 2) [] (.validation "bad") rfl rfl

end Warehouse
